import Mathlib

/-!
Verification of the numeric utility routines of the kungpao repository
(src/kungpao/utils.py) against its natural-language specification.

Python floats are modelled as exact rationals where the code uses only
field operations, floor or ceiling and comparisons, and as real numbers
for the spherical-trigonometry pair-matching code.  Fallible Python code
(raising exceptions) is modelled with `Except PyErr`.  Results of calls
into external libraries (sep, numpy.random, the Erin Sheldon cosmology
package) are taken as explicit parameters of the embedded functions.
-/

namespace Kungpao

/-- Python exceptions raised by the embedded code. -/
inductive PyErr where
  | valueError (msg : String)
  | indexError
  | zeroDivisionError
deriving DecidableEq

/-- Python float modulus `x % m`: the remainder with the sign of the divisor,
`x - m * floor (x / m)`. -/
def pymod (x m : ℚ) : ℚ := x - m * ⌊x / m⌋

/-- The modulus `abs(lower) + abs(upper)` used throughout `normalize_angle`. -/
def na_len (lower upper : ℚ) : ℚ := |lower| + |upper|

/-- First conditional update of `normalize_angle` (non-`b` mode):
`if num > upper or num == lower: num = lower + abs(num + upper) % (abs(lower) + abs(upper))`. -/
def na_step1 (num lower upper : ℚ) : ℚ :=
  if num > upper ∨ num = lower then lower + pymod |num + upper| (na_len lower upper) else num

/-- Second conditional update of `normalize_angle` (non-`b` mode):
`if num < lower or num == upper: num = upper - abs(num - lower) % (abs(lower) + abs(upper))`. -/
def na_step2 (num lower upper : ℚ) : ℚ :=
  if num < lower ∨ num = upper then upper - pymod |num - lower| (na_len lower upper) else num

/-- Final selection of `normalize_angle` (non-`b` mode):
`res = lower if num == upper else num`. -/
def na_res (num lower upper : ℚ) : ℚ := if num = upper then lower else num

/-- Embedding of `normalize_angle(num, lower, upper, b)` from utils.py.  The non-`b` branch
validates `lower >= upper` and applies the two conditional wraps; the `b`
branch applies the four conditional folds.  Python would raise
`ZeroDivisionError` in the `b` branch when a division by
`2 * total_length = 0` is actually executed, which the embedding mirrors. -/
def normalize_angle (num lower upper : ℚ) (b : Bool) : Except PyErr ℚ :=
  if !b then
    if lower ≥ upper then
      Except.error (PyErr.valueError "Invalid lower and upper limits")
    else
      Except.ok (na_res (na_step2 (na_step1 num lower upper) lower upper) lower upper * 1)
  else
    let T := |lower| + |upper|
    if num < -T ∧ T = 0 then Except.error PyErr.zeroDivisionError
    else
      let m1 := if num < -T then num + (⌈num / (-2 * T)⌉ : ℚ) * 2 * T else num
      if m1 > T ∧ T = 0 then Except.error PyErr.zeroDivisionError
      else
        let m2 := if m1 > T then m1 - (⌊m1 / (2 * T)⌋ : ℚ) * 2 * T else m1
        let m3 := if m2 > upper then T - m2 else m2
        let m4 := if m3 < lower then -T - m3 else m3
        Except.ok (m4 * 1)

/-- The value `sys.float_info.epsilon` of IEEE-754 double precision, `2 ** (-52)`. -/
def floatEps : ℚ := 1 / 4503599627370496

/-- Python `max` over a list of numbers (`ValueError` on an empty list is
modelled by `Option.none`). -/
def pyMax : List ℚ → Option ℚ
  | [] => Option.none
  | x :: xs => Option.some (xs.foldl max x)

/-- Clamp one endpoint of a Python slice: negative indices count from the end
and everything is clamped to `[0, len]`. -/
def pyIdxClamp (len : ℕ) (x : ℤ) : ℕ :=
  if x < 0 then (max ((len : ℤ) + x) 0).toNat else min x.toNat len

/-- Python list slice `l[a:b]`. -/
def pySlice (l : List ℚ) (a b : ℤ) : List ℚ :=
  let s := pyIdxClamp l.length a
  let e := pyIdxClamp l.length b
  (l.drop s).take (e - s)

/-- Lexicographic comparison on pairs, as Python compares 2-tuples. -/
def pairLe (p q : ℚ × ℚ) : Bool :=
  decide (p.1 < q.1) || (decide (p.1 = q.1) && decide (p.2 ≤ q.2))

/-- The `while cumulative_weight <= midpoint` walk of `weighted_median`:
consumes sorted weights until the running sum exceeds the midpoint, returning
`below_midpoint_index` together with the running sum at exit; running past the
end of the list is Python's `IndexError`. -/
def wm_loop (midpoint : ℚ) : List ℚ → ℚ → ℕ → Except PyErr (ℕ × ℚ)
  | [], cum, i =>
      if cum ≤ midpoint then Except.error PyErr.indexError else Except.ok (i, cum)
  | w :: rest, cum, i =>
      if cum ≤ midpoint then wm_loop midpoint rest (cum + w) (i + 1)
      else Except.ok (i, cum)

/-- Embedding of `weighted_median(data, weights)` from utils.py.  The `weights is None`
branch delegates to the external `np.median`, supplied here as the parameter
`npMedian`.  A Python call either returns a value (`Except.ok (some v)`),
falls off the end of the function returning `None` (`Except.ok Option.none`),
or raises (`Except.error`). -/
def weighted_median (npMedian : List ℚ → ℚ) (data : List ℚ) :
    Option (List ℚ) → Except PyErr (Option ℚ)
  | Option.none => Except.ok (Option.some (npMedian data))
  | Option.some ws =>
    if ws.any fun j => decide (1 / 2 * ws.sum < j) then
      match pyMax ws with
      | Option.none => Except.error (PyErr.valueError "max of empty sequence")
      | Option.some m =>
        match data.get? (ws.indexOf m) with
        | Option.none => Except.error PyErr.indexError
        | Option.some v => Except.ok (Option.some v)
    else if ws.any fun j => decide ((0 : ℚ) < j) then
      if (List.zip data ws).isEmpty then
        Except.error (PyErr.valueError "need more values to unpack")
      else
        let sorted := (List.zip data ws).mergeSort pairLe
        let sd := sorted.map Prod.fst
        let sw := sorted.map Prod.snd
        match wm_loop (1 / 2 * ws.sum) sw 0 0 with
        | Except.error e => Except.error e
        | Except.ok (i, cum) =>
          match sw.get? (i - 1) with
          | Option.none => Except.error PyErr.indexError
          | Option.some wlast =>
            if cum - wlast - 1 / 2 * ws.sum < floatEps then
              let bounds := pySlice sd ((i : ℤ) - 2) (i : ℤ)
              if bounds.length = 0 then Except.error PyErr.zeroDivisionError
              else Except.ok (Option.some (bounds.sum / bounds.length))
            else
              match sd.get? (i - 1) with
              | Option.none => Except.error PyErr.indexError
              | Option.some v => Except.ok (Option.some v)
    else Except.ok Option.none

/-- The dynamic Python values that may be passed as `seed` to
`check_random_state`: `None`, the `numpy.random` module itself, an integral
number (`numbers.Integral` / `np.integer`, including bool), a non-integral
real number (`numbers.Real`, i.e. a float), a prebuilt
`numpy.random.RandomState`, a list, a string, or anything else. -/
inductive PySeed where
  | pyNone
  | npRandomModule
  | int (n : ℤ)
  | real (q : ℚ)
  | randomState (id : ℕ)
  | list (xs : List PySeed)
  | str (s : String)
  | other

/-- The `numpy.random.RandomState` value produced by `check_random_state`:
the module-level singleton `np.random.mtrand._rand`, a state seeded from an
integer, a state seeded from a list, or a prebuilt state passed through. -/
inductive RState where
  | globalSingleton
  | fromInt (n : ℤ)
  | fromList (xs : List PySeed)
  | prebuilt (id : ℕ)

/-- Python `int()` truncation toward zero of a float. -/
def pyTrunc (q : ℚ) : ℤ := if 0 ≤ q then ⌊q⌋ else ⌈q⌉

/-- The `ValueError` message of `check_random_state` (without the formatted
`repr` of the offending seed). -/
def crs_msg : String :=
  "cannot be used to seed a numpy.random.RandomState instance"

/-- Embedding of `check_random_state(seed)` from utils.py: sequential `isinstance` checks;
`None` and the `numpy.random` module give the global singleton; integral
numbers seed a new state; real numbers are truncated to int and accepted (the
comment in the source credits this extra branch to Song Huang); a prebuilt
state passes through; a list whose first element is integral seeds a new
state (an empty list hits `seed[0]` and raises `IndexError`); everything else
raises `ValueError`. -/
def check_random_state (seed : PySeed) : Except PyErr RState :=
  match seed with
  | PySeed.pyNone => Except.ok RState.globalSingleton
  | PySeed.npRandomModule => Except.ok RState.globalSingleton
  | PySeed.int n => Except.ok (RState.fromInt n)
  | PySeed.real q => Except.ok (RState.fromInt (pyTrunc q))
  | PySeed.randomState i => Except.ok (RState.prebuilt i)
  | PySeed.list [] => Except.error PyErr.indexError
  | PySeed.list (PySeed.int k :: rest) =>
      Except.ok (RState.fromList (PySeed.int k :: rest))
  | _ => Except.error (PyErr.valueError crs_msg)

/-- Center pixel index along one image axis, `int(shape / 2)` (Python 2 true
division of a positive int followed by `int()` truncates, i.e. floor). -/
def centerIdx (m : ℕ) [NeZero m] : Fin m :=
  ⟨m / 2, Nat.div_lt_self (Nat.pos_of_ne_zero (NeZero.ne m)) one_lt_two⟩

/-- Embedding of `seg_index_cen_obj(seg)` from utils.py: look up the segmentation label at
the center pixel `seg[shape0 / 2, shape1 / 2]`; label `0` means the central
object is not detected (`None`), otherwise return the boolean footprint mask
`seg == cen_obj`. -/
def seg_index_cen_obj {m n : ℕ} [NeZero m] [NeZero n]
    (seg : Fin m → Fin n → ℕ) : Option (Fin m → Fin n → Bool) :=
  let cen_obj := seg (centerIdx m) (centerIdx n)
  if cen_obj = 0 then Option.none
  else Option.some (fun i j => seg i j == cen_obj)

/-- The per-pixel `loc` parameter handed to `np.random.normal` in
`image_clean_up`: the scalar `bkg_3.globalback` when no sigma map is given,
else the per-pixel sky model `bkg_3.back()`. -/
def noise_loc {m n : ℕ} :
    Option (Fin m → Fin n → ℚ) → ℚ → (Fin m → Fin n → ℚ) →
      Fin m → Fin n → ℚ
  | Option.none, globalback, _ => fun _ _ => globalback
  | Option.some _, _, sky_val => sky_val

/-- The per-pixel `scale` parameter handed to `np.random.normal` in
`image_clean_up`: the scalar `bkg_3.globalrms` when no sigma map is given;
otherwise the per-pixel RMS map `bkg_3.rms()` after the clamp
`sky_sig[sky_sig <= 0] = 1E-8`. -/
def noise_scale {m n : ℕ} :
    Option (Fin m → Fin n → ℚ) → ℚ → (Fin m → Fin n → ℚ) →
      Fin m → Fin n → ℚ
  | Option.none, globalrms, _ => fun _ _ => globalrms
  | Option.some _, _, sky_sig => fun i j =>
      if sky_sig i j ≤ 0 then 1 / 100000000 else sky_sig i j

/-- The final cleaning step of `image_clean_up` from utils.py.  The arrays
`seg_1`, `seg_2`, `seg_3` are the segmentation maps returned by the three
external `sep.extract` passes and `noise` is the synthetic image drawn by
`np.random.normal`; given those, the code forms `seg_comb = seg_2 + seg_3`,
zeroes the central object footprint found on `seg_1` (when detected), and
copies the input image, replacing each pixel flagged `> 0` in the combined
map by the noise value at that pixel. -/
def image_clean_up {m n : ℕ} [NeZero m] [NeZero n]
    (img : Fin m → Fin n → ℚ) (seg_1 seg_2 seg_3 : Fin m → Fin n → ℕ)
    (noise : Fin m → Fin n → ℚ) : Fin m → Fin n → ℚ :=
  let seg_comb : Fin m → Fin n → ℕ := fun i j => seg_2 i j + seg_3 i j
  let seg_comb2 : Fin m → Fin n → ℕ :=
    match seg_index_cen_obj seg_1 with
    | Option.none => seg_comb
    | Option.some mask => fun i j => if mask i j then 0 else seg_comb i j
  fun i j => if 0 < seg_comb2 i j then noise i j else img i j

/-- A catalog record with the fields used by `table_pair_match_physical`:
right ascension and declination in degrees and a redshift. -/
structure Obj where
  ra : ℝ
  dec : ℝ
  z : ℝ

/-- The external cosmology collaborator (Erin Sheldon's package): only its
angular-diameter distance `Da(z1, z2)` is consumed. -/
structure Cosmo where
  Da : ℝ → ℝ → ℝ

/-- The constant `deg2rad = pi / 180` of the angular-distance helpers. -/
noncomputable def degRad : ℝ := Real.pi / 180

/-- Unit vector on the sphere for a position in (RA, Dec) degrees, as built
inside `angular_distance`. -/
noncomputable def sphXyz (ra dec : ℝ) : ℝ × ℝ × ℝ :=
  (Real.cos (dec * degRad) * Real.cos (ra * degRad),
   Real.cos (dec * degRad) * Real.sin (ra * degRad),
   Real.sin (dec * degRad))

/-- Embedding of `np.arctan2(y, x)` (four-quadrant arctangent). -/
noncomputable def atan2 (y x : ℝ) : ℝ :=
  if 0 < x then Real.arctan (y / x)
  else if x < 0 then
    (if 0 ≤ y then Real.arctan (y / x) + Real.pi
     else Real.arctan (y / x) - Real.pi)
  else
    (if 0 < y then Real.pi / 2 else if y < 0 then -(Real.pi / 2) else 0)

/-- Embedding of `angular_distance(ra_1, dec_1, ra_arr_2, dec_arr_2)` from utils.py: the
vectorized great-circle separation, in arcsec, between one position and each
position of a list, via `atan2(|cross|, dot)` on the unit sphere. -/
noncomputable def angular_distance (ra_1 dec_1 : ℝ)
    (radec_2 : List (ℝ × ℝ)) : List ℝ :=
  radec_2.map fun rd =>
    let v1 := sphXyz ra_1 dec_1
    let v2 := sphXyz rd.1 rd.2
    let cx := v1.2.1 * v2.2.2 - v1.2.2 * v2.2.1
    let cy := v1.2.2 * v2.1 - v1.1 * v2.2.2
    let cz := v1.1 * v2.2.1 - v1.2.1 * v2.1
    atan2 (Real.sqrt (cx ^ 2 + cy ^ 2 + cz ^ 2))
        (v1.1 * v2.1 + v1.2.1 * v2.2.1 + v1.2.2 * v2.2.2) / degRad * 3600

/-- Embedding of `kpc_scale_erin(cosmo, redshift)` from utils.py: kpc per arcsec,
`cosmo.Da(0.0, redshift) / 206.264806`. -/
noncomputable def kpc_scale_erin (cosmo : Cosmo) (redshift : ℝ) : ℝ :=
  cosmo.Da 0 redshift / 206.264806

/-- The projected physical separations, in kpc, computed for one catalog-1
object inside the loop of `table_pair_match_physical`:
`sep = angular_distance(...) * scale`. -/
noncomputable def pair_seps (cosmo : Cosmo) (o : Obj) (cat2 : List Obj) :
    List ℝ :=
  (angular_distance o.ra o.dec (cat2.map fun p => (p.ra, p.dec))).map
    fun s => s * kpc_scale_erin cosmo o.z

/-- Embedding of `np.sum(sep < r_kpc)`: how many separations fall below the threshold. -/
noncomputable def countLt (t : ℝ) : List ℝ → ℕ
  | [] => 0
  | s :: rest => (if s < t then 1 else 0) + countLt t rest

/-- Positions (from index `k` on) of the list entries below the threshold. -/
noncomputable def whereLtAux (t : ℝ) : List ℝ → ℕ → List ℕ
  | [], _ => []
  | s :: rest, k =>
      if s < t then k :: whereLtAux t rest (k + 1) else whereLtAux t rest (k + 1)

/-- Embedding of `np.where(sep < r_kpc)`: the positions of the entries below threshold. -/
noncomputable def whereLt (t : ℝ) (l : List ℝ) : List ℕ := whereLtAux t l 0

/-- Embedding of `table_pair_match_physical(cat1, cat2, ...)` from utils.py: for each
catalog-1 object, the count `np.sum(sep < r_kpc)` (minus one when `include`
is true) and the matching catalog-2 positions `np.where(sep < r_kpc)`. -/
noncomputable def table_pair_match_physical (cat1 cat2 : List Obj)
    (cosmo : Cosmo) (r_kpc : ℝ) (inc : Bool) : List ℤ × List (List ℕ) :=
  (cat1.map fun o =>
      if inc then (countLt r_kpc (pair_seps cosmo o cat2) : ℤ) - 1
      else (countLt r_kpc (pair_seps cosmo o cat2) : ℤ),
   cat1.map fun o => whereLt r_kpc (pair_seps cosmo o cat2))

/-- A catalog object sitting at the origin, used as concrete test input. -/
def oW : Obj := ⟨0, 0, 0⟩

/-- A degenerate cosmology whose angular-diameter distance is identically 0,
used as concrete test input (the kpc scale it induces is 0). -/
def cosmoW : Cosmo := ⟨fun _ _ => 0⟩

/-- The catalog-1 object of the pair-counter scenario of the specification:
`ra = 10.0`, `dec = 0.0`, `z = 0.1`. -/
noncomputable def objA : Obj := ⟨10, 0, 1 / 10⟩

/-- The second catalog-2 object of the pair-counter scenario: the same point
displaced by 10 arcsec in right ascension along the equator. -/
noncomputable def objB : Obj := ⟨10 + 10 / 3600, 0, 1 / 10⟩

end Kungpao

namespace Kungpao

theorem pymod_nonneg (x m : ℚ) (hm : 0 < m) : 0 ≤ pymod x m := by
  have h1 : (⌊x / m⌋ : ℚ) ≤ x / m := Int.floor_le _
  have h2 : m * (⌊x / m⌋ : ℚ) ≤ m * (x / m) :=
    mul_le_mul_of_nonneg_left h1 (le_of_lt hm)
  have h3 : m * (x / m) = x := by field_simp
  unfold pymod
  linarith

theorem pymod_lt (x m : ℚ) (hm : 0 < m) : pymod x m < m := by
  have h1 : x / m < (⌊x / m⌋ : ℚ) + 1 := Int.lt_floor_add_one _
  have h2 : m * (x / m) < m * ((⌊x / m⌋ : ℚ) + 1) := (mul_lt_mul_left hm).2 h1
  have h3 : m * (x / m) = x := by field_simp
  unfold pymod
  nlinarith

theorem normalize_angle_nonb_eq (num lower upper : ℚ) (h : lower < upper) :
    normalize_angle num lower upper false =
      Except.ok (na_res (na_step2 (na_step1 num lower upper) lower upper) lower upper * 1) := by
  simp [normalize_angle, not_le.2 h]

/-- Claim C6 (amended): in non-`b` mode, whenever `lower ≤ 0 ≤ upper` (with
`lower < upper`) the returned value lies in the half-open interval
`[lower, upper)`; and for every pair `lower < upper`, an input strictly inside
`(lower, upper)` is returned unchanged. -/
theorem normalize_angle_range_idem (num lower upper : ℚ) (h : lower < upper) :
    (lower ≤ 0 → 0 ≤ upper →
      ∃ r, normalize_angle num lower upper false = Except.ok r ∧ lower ≤ r ∧ r < upper) ∧
    (lower < num → num < upper → normalize_angle num lower upper false = Except.ok num) := by
  constructor
  · intro hl hu
    have hLval : na_len lower upper = upper - lower := by
      unfold na_len
      rw [abs_of_nonpos hl, abs_of_nonneg hu]
      ring
    have hLpos : 0 < na_len lower upper := by rw [hLval]; linarith
    rw [normalize_angle_nonb_eq num lower upper h]
    by_cases h1 : num > upper ∨ num = lower
    · have hs1 : na_step1 num lower upper =
          lower + pymod |num + upper| (na_len lower upper) := by
        unfold na_step1
        rw [if_pos h1]
      have hp0 : 0 ≤ pymod |num + upper| (na_len lower upper) := pymod_nonneg _ _ hLpos
      have hp1 : pymod |num + upper| (na_len lower upper) < na_len lower upper :=
        pymod_lt _ _ hLpos
      have hb1 : lower ≤ na_step1 num lower upper := by rw [hs1]; linarith
      have hb2 : na_step1 num lower upper < upper := by rw [hs1]; linarith [hLval]
      have hs2 : na_step2 (na_step1 num lower upper) lower upper = na_step1 num lower upper := by
        unfold na_step2
        rw [if_neg]
        push_neg
        exact ⟨hb1, ne_of_lt hb2⟩
      refine ⟨na_step1 num lower upper, ?_, hb1, hb2⟩
      rw [hs2]
      unfold na_res
      rw [if_neg (ne_of_lt hb2), mul_one]
    · push_neg at h1
      have hs1 : na_step1 num lower upper = num := by
        unfold na_step1
        rw [if_neg]
        push_neg
        exact h1
      by_cases h2 : num < lower ∨ num = upper
      · have hs2 : na_step2 (na_step1 num lower upper) lower upper =
            upper - pymod |num - lower| (na_len lower upper) := by
          unfold na_step2
          rw [hs1, if_pos h2]
        have hp0 : 0 ≤ pymod |num - lower| (na_len lower upper) := pymod_nonneg _ _ hLpos
        have hp1 : pymod |num - lower| (na_len lower upper) < na_len lower upper :=
          pymod_lt _ _ hLpos
        have hb1 : lower < upper - pymod |num - lower| (na_len lower upper) := by
          linarith [hLval]
        have hb2 : upper - pymod |num - lower| (na_len lower upper) ≤ upper := by linarith
        by_cases h3 : upper - pymod |num - lower| (na_len lower upper) = upper
        · refine ⟨lower, ?_, le_refl lower, h⟩
          rw [hs2]
          unfold na_res
          rw [if_pos h3, mul_one]
        · refine ⟨upper - pymod |num - lower| (na_len lower upper), ?_, le_of_lt hb1,
            lt_of_le_of_ne hb2 h3⟩
          rw [hs2]
          unfold na_res
          rw [if_neg h3, mul_one]
      · push_neg at h2
        have hs2 : na_step2 (na_step1 num lower upper) lower upper = num := by
          unfold na_step2
          rw [hs1, if_neg]
          push_neg
          exact h2
        refine ⟨num, ?_, h2.1, lt_of_le_of_ne h1.1 h2.2⟩
        rw [hs2]
        unfold na_res
        rw [if_neg h2.2, mul_one]
  · intro hln hnu
    rw [normalize_angle_nonb_eq num lower upper h]
    have hs1 : na_step1 num lower upper = num := by
      unfold na_step1
      rw [if_neg]
      push_neg
      exact ⟨le_of_lt hnu, ne_of_gt hln⟩
    have hs2 : na_step2 num lower upper = num := by
      unfold na_step2
      rw [if_neg]
      push_neg
      exact ⟨le_of_lt hln, ne_of_lt hnu⟩
    rw [hs1, hs2]
    unfold na_res
    rw [if_neg (ne_of_lt hnu), mul_one]

/-- Witness for C6 (amended) at `num = 5`, `lower = -1`, `upper = 10`. -/
theorem normalize_angle_range_idem_witness :
    ((-1 : ℚ) < 10) ∧
    ((((-1 : ℚ) ≤ 0 → (0 : ℚ) ≤ 10 →
        ∃ r, normalize_angle 5 (-1) 10 false = Except.ok r ∧ -1 ≤ r ∧ r < 10)) ∧
     ((-1 : ℚ) < 5 → (5 : ℚ) < 10 → normalize_angle 5 (-1) 10 false = Except.ok 5)) :=
  ⟨by norm_num, normalize_angle_range_idem 5 (-1) 10 (by norm_num)⟩

/-- Counterexample to claim C6 as stated: with `lower = 10`, `upper = 20`
(a valid pair, `lower < upper`) the input `25` is mapped to `25`, which does
not lie in `[10, 20)`. -/
theorem normalize_angle_range_counterexample :
    normalize_angle 25 10 20 false = Except.ok 25 ∧ ¬ ((25 : ℚ) < 20) := by
  constructor
  · rw [normalize_angle_nonb_eq 25 10 20 (by norm_num)]
    have hfl : ⌊(|(25 : ℚ) + 20|) / na_len 10 20⌋ = 1 := by
      unfold na_len
      rw [show (|(25 : ℚ) + 20|) / (|(10 : ℚ)| + |(20 : ℚ)|) = 3 / 2 by norm_num]
      rw [Int.floor_eq_iff]
      norm_num
    have h1 : na_step1 25 10 20 = 25 := by
      unfold na_step1
      rw [if_pos (Or.inl (by norm_num))]
      unfold pymod
      rw [hfl]
      unfold na_len
      norm_num
    rw [h1]
    have h2 : na_step2 25 10 20 = 25 := by
      unfold na_step2
      rw [if_neg]
      push_neg
      norm_num
    rw [h2]
    unfold na_res
    rw [if_neg (by norm_num), mul_one]
  · norm_num

/-- Claim C7 (amended): in non-`b` mode, `lower ≥ upper` always raises the
validation `ValueError` before any computation. -/
theorem normalize_angle_invalid_range (num lower upper : ℚ) (h : upper ≤ lower) :
    normalize_angle num lower upper false =
      Except.error (PyErr.valueError "Invalid lower and upper limits") := by
  simp [normalize_angle, h]

/-- Witness for C7 (amended) at `num = 3`, `lower = 20`, `upper = 10`. -/
theorem normalize_angle_invalid_range_witness :
    ((10 : ℚ) ≤ 20) ∧
    normalize_angle 3 20 10 false =
      Except.error (PyErr.valueError "Invalid lower and upper limits") :=
  ⟨by norm_num, normalize_angle_invalid_range 3 20 10 (by norm_num)⟩

/-- Counterexample to claim C7 as stated: in `b` mode no validation happens;
with `lower = 20 ≥ upper = 10` the call returns the value `-30` instead of
raising. -/
theorem normalize_angle_b_mode_counterexample :
    normalize_angle 0 20 10 true = Except.ok (-30) := by
  norm_num [normalize_angle]

theorem foldl_max_mem (xs : List ℚ) (x : ℚ) : xs.foldl max x ∈ x :: xs := by
  induction xs generalizing x with
  | nil => simp
  | cons y ys ih =>
    have h := ih (max x y)
    rcases List.mem_cons.1 h with h1 | h1
    · rcases max_choice x y with hm | hm
      · rw [List.foldl_cons, h1, hm]
        exact List.mem_cons_self _ _
      · rw [List.foldl_cons, h1, hm]
        exact List.mem_cons_of_mem _ (List.mem_cons_self _ _)
    · exact List.mem_cons_of_mem _ (List.mem_cons_of_mem _ h1)

theorem pyMax_mem (ws : List ℚ) (m : ℚ) (h : pyMax ws = Option.some m) : m ∈ ws := by
  cases ws with
  | nil => simp [pyMax] at h
  | cons x xs =>
    simp only [pyMax, Option.some.injEq] at h
    rw [← h]
    exact foldl_max_mem xs x

/-- Claim C10 (amended): for a non-empty explicit weight list in which every
weight is non-positive (and matching data length), `weighted_median` returns
`None` precisely when no weight strictly exceeds half the weight sum; when
some weight does exceed that (negative) midpoint, the data value at the first
index of the maximal weight is returned instead of `None`. -/
theorem weighted_median_nonpos (npMedian : List ℚ → ℚ) (data ws : List ℚ)
    (hne : ws ≠ []) (hlen : data.length = ws.length)
    (hnp : ∀ w ∈ ws, w ≤ 0) :
    (weighted_median npMedian data (Option.some ws) = Except.ok Option.none ↔
      ∀ w ∈ ws, w ≤ 1 / 2 * ws.sum) := by
  have h2 : (ws.any fun j => decide ((0 : ℚ) < j)) = false := by
    rw [List.any_eq_false]
    intro w hw
    simpa using not_lt.2 (hnp w hw)
  by_cases h1 : (ws.any fun j => decide (1 / 2 * ws.sum < j)) = true
  · have hmax : ∃ m, pyMax ws = Option.some m := by
      cases ws with
      | nil => exact absurd rfl hne
      | cons x xs => exact ⟨xs.foldl max x, rfl⟩
    obtain ⟨m, hm⟩ := hmax
    have hmem : m ∈ ws := pyMax_mem ws m hm
    have hidx : ws.indexOf m < ws.length := List.indexOf_lt_length.2 hmem
    rw [← hlen] at hidx
    have hget : ∃ v, data.get? (ws.indexOf m) = Option.some v :=
      ⟨data.get ⟨ws.indexOf m, hidx⟩, List.get?_eq_get hidx⟩
    obtain ⟨v, hv⟩ := hget
    have hres : weighted_median npMedian data (Option.some ws) =
        Except.ok (Option.some v) := by
      simp only [weighted_median, if_pos h1, hm, hv]
    rw [hres]
    constructor
    · intro hcontr
      exact absurd (Except.ok.inj hcontr) (by simp)
    · intro hall
      rcases List.any_eq_true.1 h1 with ⟨w, hw, hww⟩
      have hle := hall w hw
      rw [decide_eq_true_eq] at hww
      linarith
  · have hall : ∀ w ∈ ws, w ≤ 1 / 2 * ws.sum := by
      intro w hw
      by_contra hcon
      push_neg at hcon
      exact h1 (List.any_eq_true.2 ⟨w, hw, decide_eq_true hcon⟩)
    have hres : weighted_median npMedian data (Option.some ws) =
        Except.ok Option.none := by
      simp only [weighted_median]
      rw [if_neg (by simpa using h1), if_neg (by simp [h2])]
    rw [hres]
    exact iff_of_true rfl hall

/-- Witness for C10 (amended) at `data = [5]`, `weights = [0]`: the midpoint
is `0`, no weight exceeds it, and the function returns `None`. -/
theorem weighted_median_nonpos_witness :
    (([0] : List ℚ) ≠ []) ∧
    (weighted_median (fun _ => 0) [5] (Option.some [0]) = Except.ok Option.none ↔
      ∀ w ∈ ([0] : List ℚ), w ≤ 1 / 2 * ([0] : List ℚ).sum) :=
  ⟨by simp, weighted_median_nonpos (fun _ => 0) [5] [0] (by simp) (by simp) (by simp)⟩

/-- Counterexample to claim C10 as stated: with `data = [5, 7]` and weights
`[-1, -3]` (all non-positive), the midpoint is `-2` and the first weight
`-1` exceeds it, so `weighted_median` returns the value `5`, not `None`. -/
theorem weighted_median_counterexample :
    weighted_median (fun _ => 0) [5, 7] (Option.some [-1, -3]) =
      Except.ok (Option.some 5) ∧
    Except.ok (Option.some (5 : ℚ)) ≠
      (Except.ok Option.none : Except PyErr (Option ℚ)) := by
  constructor
  · simp only [weighted_median]
    norm_num [pyMax, List.indexOf, List.findIdx, List.findIdx.go]
  · intro h
    simpa using Except.ok.inj h

/-- Claim C8 (amended): `check_random_state` returns a generator state exactly
for `None`, the `numpy.random` module, integers, real numbers (floats are
truncated toward zero and accepted), prebuilt states, and non-empty lists
whose first element is an integer; an arbitrary string raises the enumerating
`ValueError`; an empty list raises an `IndexError` from the `seed[0]` probe. -/
theorem check_random_state_spec (seed : PySeed) :
    ((∃ r, check_random_state seed = Except.ok r) ↔
      (seed = PySeed.pyNone ∨ seed = PySeed.npRandomModule ∨
       (∃ k, seed = PySeed.int k) ∨ (∃ q, seed = PySeed.real q) ∨
       (∃ i, seed = PySeed.randomState i) ∨
       (∃ k rest, seed = PySeed.list (PySeed.int k :: rest)))) ∧
    (∀ t, check_random_state (PySeed.str t) =
      Except.error (PyErr.valueError crs_msg)) ∧
    (check_random_state (PySeed.list []) = Except.error PyErr.indexError) := by
  refine ⟨?_, fun t => rfl, rfl⟩
  cases seed with
  | pyNone => simp [check_random_state]
  | npRandomModule => simp [check_random_state]
  | int n => simp [check_random_state]
  | real q => simp [check_random_state]
  | randomState i => simp [check_random_state]
  | str s => simp [check_random_state]
  | other => simp [check_random_state]
  | list xs =>
    cases xs with
    | nil => simp [check_random_state]
    | cons x rest =>
      cases x with
      | pyNone => simp [check_random_state]
      | npRandomModule => simp [check_random_state]
      | int k => simp [check_random_state]
      | real q => simp [check_random_state]
      | randomState i => simp [check_random_state]
      | list ys => simp [check_random_state]
      | str s => simp [check_random_state]
      | other => simp [check_random_state]

/-- Counterexample to claim C8 as stated: the non-integer float `3.5` is not
rejected; the `numbers.Real` branch truncates it to the integer seed `3` and
returns a state. -/
theorem check_random_state_counterexample :
    check_random_state (PySeed.real (7 / 2)) = Except.ok (RState.fromInt 3) ∧
    ∀ e, check_random_state (PySeed.real (7 / 2)) ≠ Except.error e := by
  have htr : pyTrunc (7 / 2) = 3 := by
    unfold pyTrunc
    rw [if_pos (by norm_num : (0 : ℚ) ≤ 7 / 2)]
    rw [Int.floor_eq_iff]
    norm_num
  constructor
  · simp [check_random_state, htr]
  · intro e h
    simp [check_random_state] at h

/-- Claim C3: the cleaned image equals the noise image exactly at the pixels
flagged (`> 0`) in the combined segmentation map `seg_2 + seg_3` after the
central object footprint (the `seg_1` label at the center pixel, when
non-zero) has been zeroed out, and equals the untouched input image at every
other pixel. -/
theorem image_clean_up_spec {m n : ℕ} [NeZero m] [NeZero n]
    (img : Fin m → Fin n → ℚ) (seg_1 seg_2 seg_3 : Fin m → Fin n → ℕ)
    (noise : Fin m → Fin n → ℚ) (i : Fin m) (j : Fin n) :
    image_clean_up img seg_1 seg_2 seg_3 noise i j =
      if 0 < seg_2 i j + seg_3 i j ∧
         (seg_1 (centerIdx m) (centerIdx n) = 0 ∨
          seg_1 i j ≠ seg_1 (centerIdx m) (centerIdx n))
      then noise i j else img i j := by
  unfold image_clean_up seg_index_cen_obj
  by_cases hc : seg_1 (centerIdx m) (centerIdx n) = 0
  · simp [hc]
  · by_cases hij : seg_1 i j = seg_1 (centerIdx m) (centerIdx n)
    · simp [hc, hij]
    · simp [hc, hij]

/-- Witness for C3 on a concrete 1-by-1 image whose only pixel is flagged by
pass 2 and not excluded (no central object on `seg_1`). -/
theorem image_clean_up_spec_witness :
    image_clean_up (fun _ _ => (3 : ℚ)) (fun _ _ => 0) (fun _ _ => 1)
        (fun _ _ => 0) (fun _ _ => (7 : ℚ)) (0 : Fin 1) (0 : Fin 1) =
      if 0 < (1 : ℕ) + 0 ∧ ((0 : ℕ) = 0 ∨ (0 : ℕ) ≠ 0)
      then (7 : ℚ) else (3 : ℚ) :=
  image_clean_up_spec (fun _ _ => (3 : ℚ)) (fun _ _ => 0) (fun _ _ => 1)
    (fun _ _ => 0) (fun _ _ => (7 : ℚ)) 0 0

/-- Claim C5: when the pass-1 segmentation label at the center pixel is `0`,
`image_clean_up` raises nothing: the central-object lookup returns `None`,
no exclusion is applied, and every pixel flagged in `seg_2 + seg_3` —
including any at the center — is replaced by noise. -/
theorem image_clean_up_center_not_detected {m n : ℕ} [NeZero m] [NeZero n]
    (img : Fin m → Fin n → ℚ) (seg_1 seg_2 seg_3 : Fin m → Fin n → ℕ)
    (noise : Fin m → Fin n → ℚ)
    (h : seg_1 (centerIdx m) (centerIdx n) = 0) :
    seg_index_cen_obj seg_1 = Option.none ∧
    ∀ i j, image_clean_up img seg_1 seg_2 seg_3 noise i j =
      if 0 < seg_2 i j + seg_3 i j then noise i j else img i j := by
  constructor
  · unfold seg_index_cen_obj
    simp [h]
  · intro i j
    unfold image_clean_up seg_index_cen_obj
    simp [h]

/-- Witness for C5 on a concrete 2-by-2 image: `seg_1` is identically zero,
`seg_2` flags the center pixel, and the center pixel is cleaned. -/
theorem image_clean_up_center_not_detected_witness :
    ((fun _ _ => 0 : Fin 2 → Fin 2 → ℕ) (centerIdx 2) (centerIdx 2) = 0) ∧
    (seg_index_cen_obj (fun _ _ => 0 : Fin 2 → Fin 2 → ℕ) = Option.none ∧
     ∀ i j, image_clean_up (fun _ _ => (3 : ℚ) : Fin 2 → Fin 2 → ℚ)
         (fun _ _ => 0) (fun _ _ => 5) (fun _ _ => 0) (fun _ _ => (9 : ℚ)) i j =
       if 0 < (5 : ℕ) + 0 then (9 : ℚ) else (3 : ℚ)) :=
  ⟨rfl, image_clean_up_center_not_detected
    (fun _ _ => (3 : ℚ) : Fin 2 → Fin 2 → ℚ) (fun _ _ => 0)
    (fun _ _ => 5) (fun _ _ => 0) (fun _ _ => (9 : ℚ)) rfl⟩

/-- Claim C4 (amended): when a per-pixel sigma map is supplied, every RMS
value handed to the normal sampler is clamped to be strictly positive (the
non-positive entries are set to `1E-8`); the global-scalar branch taken when
no sigma map is supplied performs no such clamp. -/
theorem noise_scale_clamped {m n : ℕ} (s sky_sig : Fin m → Fin n → ℚ)
    (globalrms : ℚ) (i : Fin m) (j : Fin n) :
    0 < noise_scale (Option.some s) globalrms sky_sig i j := by
  simp only [noise_scale]
  by_cases hs : sky_sig i j ≤ 0
  · rw [if_pos hs]
    norm_num
  · rw [if_neg hs]
    exact lt_of_not_le hs

/-- Counterexample to claim C4 as stated: with no sigma map supplied and a
non-positive `bkg_3.globalrms = -1`, the scale handed to the sampler is `-1`:
the global-scalar parameterization is not clamped. -/
theorem noise_scale_counterexample :
    @noise_scale 1 1 Option.none (-1) (fun _ _ => 0) 0 0 = -1 ∧
    ¬ (0 < @noise_scale 1 1 Option.none (-1) (fun _ _ => 0) 0 0) := by
  constructor
  · rfl
  · intro h
    norm_num [noise_scale] at h

theorem whereLtAux_length (t : ℝ) (l : List ℝ) (k : ℕ) :
    (whereLtAux t l k).length = countLt t l := by
  induction l generalizing k with
  | nil => simp [whereLtAux, countLt]
  | cons s rest ih =>
    unfold whereLtAux countLt
    by_cases hst : s < t
    · rw [if_pos hst, if_pos hst]
      simp [ih]
      omega
    · rw [if_neg hst, if_neg hst]
      simp [ih]

theorem mem_whereLtAux (t : ℝ) (l : List ℝ) (k j : ℕ) :
    j ∈ whereLtAux t l k ↔
      k ≤ j ∧ ∃ s, l.get? (j - k) = Option.some s ∧ s < t := by
  induction l generalizing k with
  | nil => simp [whereLtAux]
  | cons s rest ih =>
    unfold whereLtAux
    have hstep : ∀ d : ℕ, (s :: rest).get? (d + 1) = rest.get? d := by
      intro d
      simp
    by_cases hst : s < t
    · rw [if_pos hst]
      simp only [List.mem_cons, ih]
      constructor
      · rintro (rfl | ⟨hk, s2, hget, hlt⟩)
        · exact ⟨le_refl j, s, by simp, hst⟩
        · refine ⟨le_trans (Nat.le_succ k) hk, s2, ?_, hlt⟩
          have hx : j - k = (j - (k + 1)) + 1 := by omega
          rw [hx, hstep]
          exact hget
      · rintro ⟨hk, s2, hget, hlt⟩
        rcases Nat.eq_or_lt_of_le hk with heq | hklt
        · exact Or.inl heq.symm
        · refine Or.inr ⟨hklt, s2, ?_, hlt⟩
          have hx : j - k = (j - (k + 1)) + 1 := by omega
          rw [hx, hstep] at hget
          exact hget
    · rw [if_neg hst]
      rw [ih]
      constructor
      · rintro ⟨hk, s2, hget, hlt⟩
        refine ⟨le_trans (Nat.le_succ k) hk, s2, ?_, hlt⟩
        have hx : j - k = (j - (k + 1)) + 1 := by omega
        rw [hx, hstep]
        exact hget
      · rintro ⟨hk, s2, hget, hlt⟩
        rcases Nat.eq_or_lt_of_le hk with heq | hklt
        · exfalso
          have h0 : (s :: rest).get? (j - k) = Option.some s := by
            rw [← heq]
            simp
          rw [h0] at hget
          rw [← Option.some.inj hget] at hlt
          exact hst hlt
        · refine ⟨hklt, s2, ?_, hlt⟩
          have hx : j - k = (j - (k + 1)) + 1 := by omega
          rw [hx, hstep] at hget
          exact hget

theorem mem_whereLt (t : ℝ) (l : List ℝ) (j : ℕ) :
    j ∈ whereLt t l ↔ ∃ s, l.get? j = Option.some s ∧ s < t := by
  unfold whereLt
  rw [mem_whereLtAux]
  simp

theorem whereLt_length (t : ℝ) (l : List ℝ) :
    (whereLt t l).length = countLt t l :=
  whereLtAux_length t l 0

theorem countLt_of_all (t : ℝ) (l : List ℝ) (h : ∀ s ∈ l, s < t) :
    countLt t l = l.length := by
  induction l with
  | nil => simp [countLt]
  | cons s rest ih =>
    unfold countLt
    rw [if_pos (h s (List.mem_cons_self s rest))]
    simp only [List.length_cons]
    rw [ih fun x hx => h x (List.mem_cons_of_mem s hx)]
    omega

theorem countLt_of_none (t : ℝ) (l : List ℝ) (h : ∀ s ∈ l, ¬ s < t) :
    countLt t l = 0 := by
  induction l with
  | nil => simp [countLt]
  | cons s rest ih =>
    unfold countLt
    rw [if_neg (h s (List.mem_cons_self s rest))]
    rw [ih fun x hx => h x (List.mem_cons_of_mem s hx)]

theorem pair_seps_length (cosmo : Cosmo) (o : Obj) (cat2 : List Obj) :
    (pair_seps cosmo o cat2).length = cat2.length := by
  simp [pair_seps, angular_distance]

theorem tpm_fst_getD (cat1 cat2 : List Obj) (cosmo : Cosmo) (r : ℝ)
    (inc : Bool) (i : ℕ) (hi : i < cat1.length) :
    (table_pair_match_physical cat1 cat2 cosmo r inc).1.getD i 0 =
      (if inc then (countLt r (pair_seps cosmo (cat1.get ⟨i, hi⟩) cat2) : ℤ) - 1
       else (countLt r (pair_seps cosmo (cat1.get ⟨i, hi⟩) cat2) : ℤ)) := by
  simp only [table_pair_match_physical]
  rw [List.getD_eq_get _ _ (by simpa using hi)]
  rw [List.get_map]

theorem tpm_snd_getD (cat1 cat2 : List Obj) (cosmo : Cosmo) (r : ℝ)
    (inc : Bool) (i : ℕ) (hi : i < cat1.length) :
    (table_pair_match_physical cat1 cat2 cosmo r inc).2.getD i [] =
      whereLt r (pair_seps cosmo (cat1.get ⟨i, hi⟩) cat2) := by
  simp only [table_pair_match_physical]
  rw [List.getD_eq_get _ _ (by simpa using hi)]
  rw [List.get_map]

/-- Claim C1 (amended): for every catalog-1 object, the returned index list
contains exactly the catalog-2 positions whose projected distance is below
`r_kpc` (a zero-distance self-match included), and the scalar count equals
the length of that index list minus one precisely when `include` is true;
when `include` is false the count is that length unadjusted. -/
theorem table_pair_match_spec (cat1 cat2 : List Obj) (cosmo : Cosmo) (r : ℝ)
    (inc : Bool) (i : ℕ) (hi : i < cat1.length) :
    (∀ j, j ∈ (table_pair_match_physical cat1 cat2 cosmo r inc).2.getD i [] ↔
      ∃ s, (pair_seps cosmo (cat1.get ⟨i, hi⟩) cat2).get? j = Option.some s ∧
        s < r) ∧
    (table_pair_match_physical cat1 cat2 cosmo r inc).1.getD i 0 =
      (((table_pair_match_physical cat1 cat2 cosmo r inc).2.getD i []).length : ℤ)
        - (if inc then 1 else 0) := by
  constructor
  · intro j
    rw [tpm_snd_getD cat1 cat2 cosmo r inc i hi]
    exact mem_whereLt r _ j
  · rw [tpm_fst_getD cat1 cat2 cosmo r inc i hi,
      tpm_snd_getD cat1 cat2 cosmo r inc i hi, whereLt_length]
    by_cases hinc : inc = true
    · rw [hinc]
      simp
    · rw [Bool.not_eq_true] at hinc
      rw [hinc]
      simp

/-- Witness for C1 (amended) on the one-object self-matched catalog with a
zero-scale cosmology. -/
theorem table_pair_match_spec_witness :
    ((0 : ℕ) < ([oW] : List Obj).length) ∧
    ((∀ j, j ∈ (table_pair_match_physical [oW] [oW] cosmoW 1 false).2.getD 0 [] ↔
      ∃ s, (pair_seps cosmoW (([oW] : List Obj).get ⟨0, by simp⟩) [oW]).get? j =
        Option.some s ∧ s < 1) ∧
    (table_pair_match_physical [oW] [oW] cosmoW 1 false).1.getD 0 0 =
      (((table_pair_match_physical [oW] [oW] cosmoW 1 false).2.getD 0 []).length : ℤ)
        - (if false then 1 else 0)) :=
  ⟨by simp, table_pair_match_spec [oW] [oW] cosmoW 1 false 0 (by simp)⟩

/-- Counterexample to claim C1 as stated: matching a one-object catalog
against itself with a zero-scale cosmology and threshold 1, the index list
records the single (self-)match at position 0, yet with `include = True` the
count is 0 — the decrement happens when `include` is true, not false. -/
theorem table_pair_match_counterexample :
    (table_pair_match_physical [oW] [oW] cosmoW 1 true).1 = [0] ∧
    (table_pair_match_physical [oW] [oW] cosmoW 1 true).2 = [[0]] := by
  have hsep : pair_seps cosmoW oW [oW] = [0] := by
    simp [pair_seps, angular_distance, kpc_scale_erin, cosmoW]
  constructor
  · simp only [table_pair_match_physical, List.map_cons, List.map_nil, hsep]
    norm_num [countLt]
  · simp only [table_pair_match_physical, List.map_cons, List.map_nil, hsep]
    norm_num [whereLt, whereLtAux]

/-- Claim C2: in the specification's pair-counter scenario (catalog 1 the
single object at `ra = 10, dec = 0, z = 0.1`; catalog 2 that point plus one
point 10 arcsec away), whenever `r_kpc` is large enough that both projected
separations fall below it, the count is 2 with `include = False` and 1 (the
self-match excluded) with `include = True`. -/
theorem pair_match_scenario (cosmo : Cosmo) (r : ℝ)
    (h : ∀ s ∈ pair_seps cosmo objA [objA, objB], s < r) :
    (table_pair_match_physical [objA] [objA, objB] cosmo r false).1 = [2] ∧
    (table_pair_match_physical [objA] [objA, objB] cosmo r true).1 = [1] := by
  have hc : countLt r (pair_seps cosmo objA [objA, objB]) = 2 := by
    rw [countLt_of_all r _ h, pair_seps_length]
    rfl
  constructor
  · simp only [table_pair_match_physical, List.map_cons, List.map_nil, hc]
    norm_num
  · simp only [table_pair_match_physical, List.map_cons, List.map_nil, hc]
    norm_num

/-- Witness for C2 with the zero-scale cosmology (both projected separations
are 0 kpc) and `r_kpc = 1`. -/
theorem pair_match_scenario_witness :
    (∀ s ∈ pair_seps cosmoW objA [objA, objB], s < 1) ∧
    ((table_pair_match_physical [objA] [objA, objB] cosmoW 1 false).1 = [2] ∧
     (table_pair_match_physical [objA] [objA, objB] cosmoW 1 true).1 = [1]) := by
  have hall : ∀ s ∈ pair_seps cosmoW objA [objA, objB], s < 1 := by
    intro s hs
    rcases List.mem_map.1 hs with ⟨a, _, rfl⟩
    simp [kpc_scale_erin, cosmoW]
  exact ⟨hall, pair_match_scenario cosmoW 1 hall⟩

/-- Claim C9: with `include` true, a catalog-1 object with no catalog-2
object inside the threshold gets the count `-1`: the count sequence can go
negative. -/
theorem pair_match_isolated (cat1 cat2 : List Obj) (cosmo : Cosmo) (r : ℝ)
    (i : ℕ) (hi : i < cat1.length)
    (h : ∀ s ∈ pair_seps cosmo (cat1.get ⟨i, hi⟩) cat2, ¬ s < r) :
    (table_pair_match_physical cat1 cat2 cosmo r true).1.getD i 0 = -1 := by
  rw [tpm_fst_getD cat1 cat2 cosmo r true i hi]
  rw [if_pos rfl]
  rw [countLt_of_none r _ h]
  rfl

/-- Witness for C9: the one-object catalog against itself with threshold 0
(the zero separation is not strictly below 0), count is `-1`. -/
theorem pair_match_isolated_witness :
    ((0 : ℕ) < ([oW] : List Obj).length) ∧
    (table_pair_match_physical [oW] [oW] cosmoW 0 true).1.getD 0 0 = -1 := by
  have h : ∀ s ∈ pair_seps cosmoW (([oW] : List Obj).get ⟨0, by simp⟩) [oW],
      ¬ s < 0 := by
    intro s hs
    rcases List.mem_map.1 hs with ⟨a, _, rfl⟩
    simp [kpc_scale_erin, cosmoW]
  exact ⟨by simp, pair_match_isolated [oW] [oW] cosmoW 0 0 (by simp) h⟩

end Kungpao
